import Mathlib

/-!
Verification of the property-graph core of the glTF-Transform repository.

The `Property` facade (`src/unnamed/part_000`) is embedded directly from the
source.  The base graph engine (`GraphNode` / `PropertyGraph`: `link`,
`disconnectParents`, `removeGraphChild`, `dispose`, `listGraphParents`) is not
part of the provided sources; those primitives are modelled from the spec
(sections 4.1 and 4.2), as marked on each definition.

Nodes are identified by natural numbers.  The graph state carries an
association list of node data, a global creation-ordered list of links (each
link records which child-list slot of its parent owns it), and a counter for
link identities.  Operations that can fail return `Except GraphError`, and
mutating operations also return the post-state, so that a failure that has
already mutated the state is observable.
-/

/-- Per-node data: owning graph id, the `propertyType` tag each concrete kind
supplies, `_name`, `_extras` (an opaque blob, held here as a string), the
`extensionName` identifier (meaningful for ExtensionProperty nodes), and the
disposed flag. -/
structure NodeData where
  graphId : Nat
  propertyType : String
  name : String
  extras : String
  extensionName : String
  disposed : Bool
deriving DecidableEq, Repr

/-- A directed named edge.  `linkId` gives links identity (two structurally
identical links created separately are distinct edges); `slot` records which
child-list of the parent owns the link (e.g. the `extensions` list). -/
structure Link where
  linkId : Nat
  name : String
  slot : String
  parent : Nat
  child : Nat
deriving DecidableEq, Repr

/-- The owning registry of all nodes and links (spec section 4.1). -/
structure GraphState where
  nodes : List (Nat × NodeData)
  links : List Link
  nextLinkId : Nat
deriving DecidableEq, Repr

/-- Error kinds of spec section 7. -/
inductive GraphError where
  | invalidOperation
  | invalidState
  | notImplemented
deriving DecidableEq, Repr

instance {ε α : Type} [DecidableEq ε] [DecidableEq α] : DecidableEq (Except ε α) := fun x y =>
  match x, y with
  | Except.ok a, Except.ok b =>
    if h : a = b then isTrue (by rw [h])
    else isFalse (fun hc => h (by injection hc))
  | Except.error a, Except.error b =>
    if h : a = b then isTrue (by rw [h])
    else isFalse (fun hc => h (by injection hc))
  | Except.ok _, Except.error _ => isFalse (fun hc => Except.noConfusion hc)
  | Except.error _, Except.ok _ => isFalse (fun hc => Except.noConfusion hc)

def getNode (s : GraphState) (n : Nat) : Option NodeData :=
  (s.nodes.find? (fun p => p.1 == n)).map Prod.snd

/-- A node absent from the registry is treated as not live. -/
def isDisposed (s : GraphState) (n : Nat) : Bool :=
  match getNode s n with
  | some d => d.disposed
  | none => true

def propertyTypeOf (s : GraphState) (n : Nat) : String :=
  ((getNode s n).map (fun d => d.propertyType)).getD ""

def extensionNameOf (s : GraphState) (n : Nat) : String :=
  ((getNode s n).map (fun d => d.extensionName)).getD ""

def graphIdOf (s : GraphState) (n : Nat) : Nat :=
  ((getNode s n).map (fun d => d.graphId)).getD 0

def updateNode (s : GraphState) (n : Nat) (f : NodeData → NodeData) : GraphState :=
  { s with nodes := s.nodes.map (fun p => if p.1 == n then (p.1, f p.2) else p) }

/-- The slot tag of the `@GraphChildList protected extensions` list. -/
def extSlot : String := "extensions"

/-- The links currently held in `h`'s `extensions` child-list, in creation
order (the global link list is append-ordered and removals delete links, so
filtering it reproduces the JS array). -/
def extLinks (s : GraphState) (h : Nat) : List Link :=
  s.links.filter (fun l => l.parent == h && l.slot == extSlot)

/-- `Property.listExtensions`: `this.extensions.map((link) => link.getChild())`. -/
def Property.listExtensions (s : GraphState) (h : Nat) : List Nat :=
  (extLinks s h).map (fun l => l.child)

/-- The predicate of the `find` in `Property.getExtension`:
`link.getChild().extensionName === name`. -/
def extMatches (s : GraphState) (c : String) (l : Link) : Bool :=
  extensionNameOf s l.child == c

/-- `Property.getExtension`: linear scan of `this.extensions` for the first
link whose child's `extensionName` equals `ctor.EXTENSION_NAME` (here the
constructor token is represented by its registered identifier string). -/
def Property.getExtension (s : GraphState) (h : Nat) (ctorName : String) : Option Nat :=
  ((extLinks s h).find? (extMatches s ctorName)).map (fun l => l.child)

/-- Modelled from the spec: `GraphNode.removeGraphChild(this.extensions, child)`
is not in the sources; per spec 4.1/4.3 it removes from the host's extensions
list (and from the registry) every link in that list whose child is `c`,
without disposing the child node. -/
def GraphNode.removeGraphChild (s : GraphState) (h : Nat) (c : Nat) : GraphState :=
  { s with links :=
      s.links.filter (fun l => !(l.parent == h && l.slot == extSlot && l.child == c)) }

/-- The state after a successful `PropertyGraph.link` plus `addGraphChild`: a
fresh link is registered and pushed onto the parent's `slot` child-list. -/
def linkedState (s : GraphState) (slot nm : String) (p c : Nat) : GraphState :=
  { s with
    links := s.links ++ [{ linkId := s.nextLinkId, name := nm, slot := slot, parent := p, child := c }],
    nextLinkId := s.nextLinkId + 1 }

/-- Modelled from the spec: `PropertyGraph.link` together with
`GraphNode.addGraphChild` is not in the sources.  Per spec 4.1 it creates and
registers a new outgoing link on `p` pointing at `c`, failing if either node
belongs to a different graph instance or is already disposed; per spec 4.2/7 an
operation on an already-disposed receiver fails with `InvalidState`, so a
disposed parent reports `InvalidState` and a disposed child or a cross-graph
pair reports `InvalidOperation`.  `addGraphChild` pushes the new link onto the
parent's `slot` child-list, modelled by the `slot` tag on the appended link. -/
def PropertyGraph.link (s : GraphState) (slot nm : String) (p c : Nat) :
    Except GraphError GraphState :=
  if isDisposed s p then Except.error GraphError.invalidState
  else if isDisposed s c then Except.error GraphError.invalidOperation
  else if graphIdOf s p != graphIdOf s c then Except.error GraphError.invalidOperation
  else Except.ok (linkedState s slot nm p c)

/-- Lines 113-115 of `Property.setExtension`: look up the previous extension
under the token's identifier and, when present, remove it from the host's
extensions list. -/
def removePrevExtension (s : GraphState) (h : Nat) (ctorName : String) : GraphState :=
  match Property.getExtension s h ctorName with
  | some prev => GraphNode.removeGraphChild s h prev
  | none => s

/-- `Property.setExtension`: removes the previous extension found under the
token's identifier, stops if the new value is null, otherwise links the new
extension under its own `extensionName`.  Returns `this` (the host id) on
success; on failure the state reached so far is returned alongside the error. -/
def Property.setExtension (s : GraphState) (h : Nat) (ctorName : String) (ext : Option Nat) :
    Except GraphError Nat × GraphState :=
  let s1 := removePrevExtension s h ctorName
  match ext with
  | none => (Except.ok h, s1)
  | some e =>
    match PropertyGraph.link s1 extSlot (extensionNameOf s1 e) h e with
    | Except.ok s2 => (Except.ok h, s2)
    | Except.error err => (Except.error err, s1)

/-- The state after a successful `disconnectParents`: every link pointing at
`n` whose parent satisfies the predicate is removed. -/
def disconnectedState (s : GraphState) (n : Nat) (pred : Nat → Bool) : GraphState :=
  { s with links := s.links.filter (fun l => !(l.child == n && pred l.parent)) }

/-- Modelled from the spec: `PropertyGraph.disconnectParents` is not in the
sources.  Per spec 4.1 it removes every parent link pointing at `n` whose
parent satisfies the predicate, touching none of `n`'s own outgoing links; per
spec 4.2/7 invoking it on a disposed node fails with `InvalidState`. -/
def PropertyGraph.disconnectParents (s : GraphState) (n : Nat) (pred : Nat → Bool) :
    Except GraphError GraphState :=
  if isDisposed s n then Except.error GraphError.invalidState
  else Except.ok (disconnectedState s n pred)

/-- `Property.detach`: `this._graph.disconnectParents(this, (n) => n.propertyType !== 'Root')`,
returning `this`. -/
def Property.detach (s : GraphState) (n : Nat) : Except GraphError Nat × GraphState :=
  match PropertyGraph.disconnectParents s n (fun p => propertyTypeOf s p != "Root") with
  | Except.ok s2 => (Except.ok n, s2)
  | Except.error err => (Except.error err, s)

/-- Modelled from the spec: `GraphNode.dispose` is not in the sources.  Per
spec 4.1/4.2 it releases all outgoing links, then all incoming links, then
marks the node permanently invalid. -/
def GraphNode.dispose (s : GraphState) (n : Nat) : GraphState :=
  let s1 := { s with links := s.links.filter (fun l => !(l.parent == n)) }
  let s2 := { s1 with links := s1.links.filter (fun l => !(l.child == n)) }
  updateNode s2 n (fun d => { d with disposed := true })

/-- Modelled from the spec: `GraphNode.listGraphParents` is not in the sources.
Per spec 4.1 it returns, in link-creation order, the distinct parent nodes
holding a link to `n`. -/
def GraphNode.listGraphParents (s : GraphState) (n : Nat) : List Nat :=
  ((s.links.filter (fun l => l.child == n)).map (fun l => l.parent)).dedup

/-- `Property.listParents`: `this.listGraphParents()`. -/
def Property.listParents (s : GraphState) (n : Nat) : List Nat :=
  GraphNode.listGraphParents s n

/-- `Property.setName`: sets `_name` and returns `this`. -/
def Property.setName (s : GraphState) (n : Nat) (nm : String) : Nat × GraphState :=
  (n, updateNode s n (fun d => { d with name := nm }))

/-- `Property.setExtras`: replaces `_extras` and returns `this`. -/
def Property.setExtras (s : GraphState) (n : Nat) (ex : String) : Nat × GraphState :=
  (n, updateNode s n (fun d => { d with extras := ex }))

/-- `Property.clone`: `throw new Error('Not implemented.')` — the base
implementation always fails and never produces a node. -/
def Property.clone (_s : GraphState) (_n : Nat) : Except GraphError Nat :=
  Except.error GraphError.notImplemented

/-- The at-most-one-extension-per-identifier invariant on a host: no two links
of its extensions list have children with the same extension identifier. -/
def extInvariant (s : GraphState) (h : Nat) : Prop :=
  List.Pairwise (fun l1 l2 => extensionNameOf s l1.child ≠ extensionNameOf s l2.child)
    (extLinks s h)

instance (s : GraphState) (h : Nat) : Decidable (extInvariant s h) :=
  List.instDecidablePairwise _

/- Concrete states used by sanity checks, witnesses and counterexamples. -/

def mkNode (g : Nat) (t e : String) (d : Bool) : NodeData :=
  { graphId := g, propertyType := t, name := "", extras := "", extensionName := e, disposed := d }

def sanityState : GraphState :=
  { nodes := [(0, mkNode 0 "Material" "" false), (1, mkNode 0 "Ext" "A" false),
              (2, mkNode 0 "Ext" "A" false), (3, mkNode 0 "Ext" "B" false),
              (4, mkNode 0 "Root" "" false), (5, mkNode 0 "Material" "" false),
              (6, mkNode 0 "Ext" "A" true)],
    links := [],
    nextLinkId := 0 }

/-- `sanityState` after attaching extension node 1 (identifier "A") to host 0. -/
def stateWithA : GraphState := (Property.setExtension sanityState 0 "A" (some 1)).2

/-- `stateWithA` after also attaching extension node 3 (identifier "B") to
host 0: the extensions list is [node 1, node 3]. -/
def stateAB : GraphState := (Property.setExtension stateWithA 0 "B" (some 3)).2

/-- A state where node 1 has parents 0 and 5 (Materials) and 4 (Root), and one
outgoing link to node 3. -/
def detachState : GraphState :=
  { sanityState with
    links := [{ linkId := 0, name := "r", slot := "refs", parent := 0, child := 1 },
              { linkId := 1, name := "r", slot := "refs", parent := 5, child := 1 },
              { linkId := 2, name := "r", slot := "refs", parent := 4, child := 1 },
              { linkId := 3, name := "r", slot := "refs", parent := 1, child := 3 }],
    nextLinkId := 4 }

example :
    Property.listExtensions (Property.setExtension sanityState 0 "A" (some 1)).2 0 = [1] := by
  decide

example :
    Property.listExtensions
      (Property.setExtension (Property.setExtension sanityState 0 "A" (some 1)).2
        0 "A" (some 2)).2 0 = [2] := by
  decide

/-! ### Basic lemmas: node data is untouched by link-level operations -/

theorem removeGraphChild_nodes (s : GraphState) (h c : Nat) :
    (GraphNode.removeGraphChild s h c).nodes = s.nodes := rfl

theorem removePrev_nodes (s : GraphState) (h : Nat) (c : String) :
    (removePrevExtension s h c).nodes = s.nodes := by
  unfold removePrevExtension
  cases Property.getExtension s h c <;> rfl

theorem linkedState_nodes (s : GraphState) (slot nm : String) (p c : Nat) :
    (linkedState s slot nm p c).nodes = s.nodes := rfl

theorem getNode_congr {s1 s2 : GraphState} (hn : s1.nodes = s2.nodes) (n : Nat) :
    getNode s1 n = getNode s2 n := by
  unfold getNode; rw [hn]

theorem isDisposed_congr {s1 s2 : GraphState} (hn : s1.nodes = s2.nodes) (n : Nat) :
    isDisposed s1 n = isDisposed s2 n := by
  unfold isDisposed; rw [getNode_congr hn]

theorem extensionNameOf_congr {s1 s2 : GraphState} (hn : s1.nodes = s2.nodes) (n : Nat) :
    extensionNameOf s1 n = extensionNameOf s2 n := by
  unfold extensionNameOf; rw [getNode_congr hn]

theorem graphIdOf_congr {s1 s2 : GraphState} (hn : s1.nodes = s2.nodes) (n : Nat) :
    graphIdOf s1 n = graphIdOf s2 n := by
  unfold graphIdOf; rw [getNode_congr hn]

theorem propertyTypeOf_congr {s1 s2 : GraphState} (hn : s1.nodes = s2.nodes) (n : Nat) :
    propertyTypeOf s1 n = propertyTypeOf s2 n := by
  unfold propertyTypeOf; rw [getNode_congr hn]

theorem extMatches_congr {s1 s2 : GraphState} (hn : s1.nodes = s2.nodes) (c : String)
    (l : Link) : extMatches s1 c l = extMatches s2 c l := by
  unfold extMatches; rw [extensionNameOf_congr hn]

/-! ### Lemmas about the extensions child-list -/

theorem extLinks_remove (s : GraphState) (h p : Nat) :
    extLinks (GraphNode.removeGraphChild s h p) h
      = (extLinks s h).filter (fun l => !(l.child == p)) := by
  show (s.links.filter fun l => !(l.parent == h && l.slot == extSlot && l.child == p)).filter
        (fun l => l.parent == h && l.slot == extSlot)
      = (s.links.filter fun l => l.parent == h && l.slot == extSlot).filter
        (fun l => !(l.child == p))
  rw [List.filter_filter, List.filter_filter]
  apply List.filter_congr
  intro l _
  cases hb : (l.parent == h) <;> cases hs : (l.slot == extSlot) <;>
    cases hc : (l.child == p) <;> simp [hb, hs, hc]

theorem extLinks_linkedState (s : GraphState) (nm : String) (h e : Nat) :
    extLinks (linkedState s extSlot nm h e) h
      = extLinks s h
          ++ [{ linkId := s.nextLinkId, name := nm, slot := extSlot, parent := h, child := e }] := by
  simp [extLinks, linkedState, List.filter_append]

theorem getExtension_none_iff (s : GraphState) (h : Nat) (c : String) :
    Property.getExtension s h c = none ↔ ∀ l ∈ extLinks s h, extMatches s c l = false := by
  unfold Property.getExtension
  simp [List.find?_eq_none]

theorem getExtension_some (s : GraphState) (h : Nat) (c : String) (p : Nat)
    (hf : Property.getExtension s h c = some p) :
    ∃ lp ∈ extLinks s h, lp.child = p ∧ extMatches s c lp = true := by
  unfold Property.getExtension at hf
  cases hff : (extLinks s h).find? (extMatches s c) with
  | none => rw [hff] at hf; simp at hf
  | some lp =>
    rw [hff] at hf
    simp only [Option.map_some'] at hf
    have hchild : lp.child = p := by injection hf
    exact ⟨lp, List.mem_of_find?_eq_some hff, hchild, List.find?_some hff⟩

/-- With at most one identifier-matching link on the host (the invariant the
facade is meant to maintain), the removal phase of `setExtension` deletes
exactly the identifier-matching links of the host's extensions list. -/
theorem extLinks_removePrev (s : GraphState) (h : Nat) (c : String)
    (hcount : ((extLinks s h).filter (extMatches s c)).length ≤ 1) :
    extLinks (removePrevExtension s h c) h
      = (extLinks s h).filter (fun l => !(extMatches s c l)) := by
  unfold removePrevExtension
  cases hf : Property.getExtension s h c with
  | none =>
    have hall := (getExtension_none_iff s h c).mp hf
    symm
    rw [List.filter_eq_self]
    intro l hl
    simp [hall l hl]
  | some p =>
    obtain ⟨lp, hlp_mem, hlp_child, hlp_match⟩ := getExtension_some s h c p hf
    rw [extLinks_remove]
    apply List.filter_congr
    intro l hl
    by_cases hcp : l.child = p
    · have hm : extMatches s c l = true := by
        unfold extMatches at hlp_match ⊢
        rw [hcp, ← hlp_child]
        exact hlp_match
      simp [hcp, hm]
    · cases hxx : extMatches s c l with
      | false => simp [hcp, hxx]
      | true =>
        exfalso
        have hlmem : l ∈ (extLinks s h).filter (extMatches s c) :=
          List.mem_filter.mpr ⟨hl, hxx⟩
        have hlpmem : lp ∈ (extLinks s h).filter (extMatches s c) :=
          List.mem_filter.mpr ⟨hlp_mem, hlp_match⟩
        have hne : l ≠ lp := fun hq => hcp (hq ▸ hlp_child)
        cases hF : (extLinks s h).filter (extMatches s c) with
        | nil => rw [hF] at hlmem; exact (List.not_mem_nil l) hlmem
        | cons a t =>
          cases t with
          | nil =>
            rw [hF] at hlmem hlpmem
            have h1 : l = a := by simpa using hlmem
            have h2 : lp = a := by simpa using hlpmem
            exact hne (h1.trans h2.symm)
          | cons b t2 => rw [hF] at hcount; simp at hcount

/-- After the removal phase, no identifier-matching link remains (under the
at-most-one hypothesis). -/
theorem removePrev_no_match (s : GraphState) (h : Nat) (c : String)
    (hcount : ((extLinks s h).filter (extMatches s c)).length ≤ 1) :
    ∀ l ∈ extLinks (removePrevExtension s h c) h, extMatches s c l = false := by
  rw [extLinks_removePrev s h c hcount]
  intro l hl
  simpa using (List.mem_filter.mp hl).2

/-- `PropertyGraph.link` succeeds when both endpoints are live and co-resident. -/
theorem link_ok (s : GraphState) (slot nm : String) (p c : Nat)
    (hp : isDisposed s p = false) (hc : isDisposed s c = false)
    (hg : graphIdOf s p = graphIdOf s c) :
    PropertyGraph.link s slot nm p c = Except.ok (linkedState s slot nm p c) := by
  simp [PropertyGraph.link, hp, hc, hg]

/-- The null path of `setExtension` always returns the host and performs only
the removal phase. -/
theorem setExtension_none_eq (s : GraphState) (h : Nat) (c : String) :
    Property.setExtension s h c none = (Except.ok h, removePrevExtension s h c) := rfl

/-- On live, co-resident host and extension, `setExtension` succeeds and its
post-state is the removal phase followed by the new link. -/
theorem setExtension_some_eq (s : GraphState) (h e : Nat) (c : String)
    (hh : isDisposed s h = false) (he : isDisposed s e = false)
    (hg : graphIdOf s h = graphIdOf s e) :
    Property.setExtension s h c (some e)
      = (Except.ok h,
         linkedState (removePrevExtension s h c) extSlot (extensionNameOf s e) h e) := by
  have hn := removePrev_nodes s h c
  have h1 : isDisposed (removePrevExtension s h c) h = false := by
    rw [isDisposed_congr hn]; exact hh
  have h2 : isDisposed (removePrevExtension s h c) e = false := by
    rw [isDisposed_congr hn]; exact he
  have h3 : graphIdOf (removePrevExtension s h c) h
      = graphIdOf (removePrevExtension s h c) e := by
    rw [graphIdOf_congr hn, graphIdOf_congr hn]; exact hg
  have h4 : extensionNameOf (removePrevExtension s h c) e = extensionNameOf s e :=
    extensionNameOf_congr hn e
  have hred : Property.setExtension s h c (some e)
      = (match PropertyGraph.link (removePrevExtension s h c) extSlot
            (extensionNameOf (removePrevExtension s h c) e) h e with
          | Except.ok s2 => (Except.ok h, s2)
          | Except.error err => (Except.error err, removePrevExtension s h c)) := rfl
  rw [hred, h4, link_ok _ _ _ _ _ h1 h2 h3]

/-- When the non-null path fails, the returned state is exactly the removal
phase: the previous link is already gone. -/
theorem setExtension_error_state (s : GraphState) (h e : Nat) (c : String)
    (err : GraphError)
    (hf : (Property.setExtension s h c (some e)).1 = Except.error err) :
    (Property.setExtension s h c (some e)).2 = removePrevExtension s h c := by
  have hred : Property.setExtension s h c (some e)
      = (match PropertyGraph.link (removePrevExtension s h c) extSlot
            (extensionNameOf (removePrevExtension s h c) e) h e with
          | Except.ok s2 => (Except.ok h, s2)
          | Except.error err => (Except.error err, removePrevExtension s h c)) := rfl
  rw [hred] at hf ⊢
  cases hres : PropertyGraph.link (removePrevExtension s h c) extSlot
      (extensionNameOf (removePrevExtension s h c) e) h e with
  | ok s2 => rw [hres] at hf; simp at hf
  | error e2 => rfl

/-! ### Claim theorems -/

/-- C7: calling `clone` on a Property whose concrete type has not overridden it
always fails with `NotImplemented`; the base implementation never returns a
node. -/
theorem C7_clone_not_implemented (s : GraphState) (n : Nat) :
    Property.clone s n = Except.error GraphError.notImplemented := rfl

/-- C10: the mutating Property operations `setName`, `setExtras`,
`setExtension` and `detach` all return the receiver node itself (the same node
identity), for every input. -/
theorem C10_mutators_return_receiver (s : GraphState) (n : Nat) (nm ex c : String)
    (ext : Option Nat) :
    (Property.setName s n nm).1 = n ∧
    (Property.setExtras s n ex).1 = n ∧
    (∀ m : Nat, (Property.setExtension s n c ext).1 = Except.ok m → m = n) ∧
    (∀ m : Nat, (Property.detach s n).1 = Except.ok m → m = n) := by
  refine ⟨rfl, rfl, ?_, ?_⟩
  · intro m hm
    cases ext with
    | none =>
      rw [setExtension_none_eq] at hm
      simp at hm
      exact hm.symm
    | some e =>
      have hred : Property.setExtension s n c (some e)
          = (match PropertyGraph.link (removePrevExtension s n c) extSlot
                (extensionNameOf (removePrevExtension s n c) e) n e with
              | Except.ok s2 => (Except.ok n, s2)
              | Except.error err => (Except.error err, removePrevExtension s n c)) := rfl
      rw [hred] at hm
      cases hres : PropertyGraph.link (removePrevExtension s n c) extSlot
          (extensionNameOf (removePrevExtension s n c) e) n e with
      | ok s2 => rw [hres] at hm; simp at hm; exact hm.symm
      | error e2 => rw [hres] at hm; simp at hm
  · intro m hm
    unfold Property.detach at hm
    cases hres : PropertyGraph.disconnectParents s n
        (fun p => propertyTypeOf s p != "Root") with
    | ok s2 => rw [hres] at hm; simp at hm; exact hm.symm
    | error e2 => rw [hres] at hm; simp at hm

/-- Witness for C10 at a concrete state: `setName` returns the receiver, and
the `setExtension` implication is discharged at node 0. -/
theorem C10_witness :
    (Property.setName sanityState 0 "x").1 = 0 ∧ (0 : Nat) = 0 :=
  ⟨(C10_mutators_return_receiver sanityState 0 "x" "" "A" (some 1)).1,
   (C10_mutators_return_receiver sanityState 0 "x" "" "A" (some 1)).2.2.1 0 (by decide)⟩

/-- C5: `setExtension(token, null)` with no extension of that identifier
attached is a no-op (state unchanged, result ok); with one attached it removes
that link without disposing the extension node. -/
theorem C5_setExtension_null (s : GraphState) (h : Nat) (c : String) :
    (Property.getExtension s h c = none →
      Property.setExtension s h c none = (Except.ok h, s)) ∧
    (∀ p : Nat, Property.getExtension s h c = some p →
      Property.setExtension s h c none = (Except.ok h, GraphNode.removeGraphChild s h p) ∧
      (GraphNode.removeGraphChild s h p).nodes = s.nodes ∧
      isDisposed (GraphNode.removeGraphChild s h p) p = isDisposed s p ∧
      p ∉ Property.listExtensions (GraphNode.removeGraphChild s h p) h) := by
  constructor
  · intro hn
    rw [setExtension_none_eq]
    unfold removePrevExtension
    rw [hn]
  · intro p hp
    refine ⟨?_, rfl, isDisposed_congr rfl p, ?_⟩
    · rw [setExtension_none_eq]
      unfold removePrevExtension
      rw [hp]
    · unfold Property.listExtensions
      rw [extLinks_remove]
      intro hmem
      obtain ⟨l, hl, hlc⟩ := List.mem_map.mp hmem
      have hkeep := (List.mem_filter.mp hl).2
      simp [hlc] at hkeep

/-- Witness for C5: both branches at concrete states — host 0 of `sanityState`
has no "A" extension (no-op branch), host 0 of `stateWithA` has node 1 attached
(removal branch). -/
theorem C5_witness :
    Property.setExtension sanityState 0 "A" none = (Except.ok 0, sanityState) ∧
    (1 : Nat) ∉ Property.listExtensions (GraphNode.removeGraphChild stateWithA 0 1) 0 :=
  ⟨(C5_setExtension_null sanityState 0 "A").1 (by decide),
   ((C5_setExtension_null stateWithA 0 "A").2 1 (by decide)).2.2.2⟩

/-- C6: `getExtension` is a linear scan of the host's extension links that
returns the child of the first link whose child's extension identifier equals
the token's registered identifier, and returns null when no link matches. -/
theorem C6_getExtension_first_match (s : GraphState) (h : Nat) (c : String) :
    (Property.getExtension s h c = none ↔
      ∀ e ∈ Property.listExtensions s h, extensionNameOf s e ≠ c) ∧
    (∀ e : Nat, Property.getExtension s h c = some e ↔
      ∃ pre l post, extLinks s h = pre ++ l :: post ∧ l.child = e ∧
        extensionNameOf s l.child = c ∧
        ∀ x ∈ pre, extensionNameOf s x.child ≠ c) := by
  constructor
  · rw [getExtension_none_iff]
    constructor
    · intro hall e he
      obtain ⟨l, hl, hlc⟩ := List.mem_map.mp he
      have := hall l hl
      unfold extMatches at this
      rw [← hlc]
      simpa using this
    · intro hall l hl
      have := hall l.child (List.mem_map.mpr ⟨l, hl, rfl⟩)
      unfold extMatches
      simpa using this
  · intro e
    constructor
    · intro hf
      unfold Property.getExtension at hf
      cases hff : (extLinks s h).find? (extMatches s c) with
      | none => rw [hff] at hf; simp at hf
      | some lp =>
        rw [hff] at hf
        simp only [Option.map_some'] at hf
        have hchild : lp.child = e := by injection hf
        obtain ⟨hp, as, bs, heq, hpre⟩ := List.find?_eq_some.mp hff
        refine ⟨as, lp, bs, heq, hchild, ?_, ?_⟩
        · unfold extMatches at hp; simpa using hp
        · intro x hx
          have := hpre x hx
          unfold extMatches at this
          simpa using this
    · rintro ⟨pre, l, post, heq, hchild, hname, hpre⟩
      have hf : (extLinks s h).find? (extMatches s c) = some l := by
        apply List.find?_eq_some.mpr
        refine ⟨?_, pre, post, heq, ?_⟩
        · unfold extMatches; simp [hname]
        · intro x hx
          unfold extMatches
          simp [hpre x hx]
      unfold Property.getExtension
      rw [hf]
      simp [hchild]

/-- Witness for C6: on `stateWithA` the scan finds node 1 under "A", and on
`sanityState` (no links) the scan reports null for "B". -/
theorem C6_witness :
    Property.getExtension sanityState 0 "B" = none ∧
    Property.getExtension stateWithA 0 "A" = some 1 :=
  ⟨(C6_getExtension_first_match sanityState 0 "B").1.mpr (by decide),
   ((C6_getExtension_first_match stateWithA 0 "A").2 1).mpr
     ⟨[], { linkId := 0, name := "A", slot := extSlot, parent := 0, child := 1 }, [],
      by decide, by decide, by decide, by decide⟩⟩

/-! ### Lemmas about dispose -/

theorem find?_fst_map_update (ls : List (Nat × NodeData)) (n : Nat)
    (f : NodeData → NodeData) :
    (ls.map (fun p => if p.1 == n then (p.1, f p.2) else p)).find? (fun p => p.1 == n)
      = (ls.find? (fun p => p.1 == n)).map (fun p => (p.1, f p.2)) := by
  induction ls with
  | nil => rfl
  | cons q qs ih =>
    cases hq : (q.1 == n) with
    | true =>
      have hmap : (if (q.1 == n) = true then (q.1, f q.2) else q) = (q.1, f q.2) := if_pos hq
      rw [List.map_cons, hmap]
      have hq2 : ((q.1, f q.2).1 == n) = true := hq
      rw [@List.find?_cons_of_pos _ (fun x => x.1 == n) (q.1, f q.2) _ hq2,
        @List.find?_cons_of_pos _ (fun x => x.1 == n) q _ hq]
      rfl
    | false =>
      have hmap : (if (q.1 == n) = true then (q.1, f q.2) else q) = q := if_neg (by simp [hq])
      rw [List.map_cons, hmap]
      rw [@List.find?_cons_of_neg _ (fun x => x.1 == n) q _ (by simp [hq]),
        @List.find?_cons_of_neg _ (fun x => x.1 == n) q _ (by simp [hq])]
      exact ih

theorem getNode_updateNode_self (s : GraphState) (n : Nat) (f : NodeData → NodeData) :
    getNode (updateNode s n f) n = (getNode s n).map f := by
  unfold getNode updateNode
  simp only [find?_fst_map_update]
  cases s.nodes.find? (fun p => p.1 == n) <;> rfl

theorem isDisposed_updateNode_disposed (s : GraphState) (n : Nat) :
    isDisposed (updateNode s n (fun d => { d with disposed := true })) n = true := by
  unfold isDisposed
  rw [getNode_updateNode_self]
  cases getNode s n <;> rfl

theorem isDisposed_dispose (s : GraphState) (n : Nat) :
    isDisposed (GraphNode.dispose s n) n = true := by
  unfold GraphNode.dispose
  exact isDisposed_updateNode_disposed _ n

theorem dispose_nodes_links (s : GraphState) (n : Nat) :
    (GraphNode.dispose s n).links
      = (s.links.filter (fun l => !(l.parent == n))).filter (fun l => !(l.child == n)) := rfl

theorem mem_dispose_links (s : GraphState) (n : Nat) (l : Link)
    (hl : l ∈ (GraphNode.dispose s n).links) :
    l ∈ s.links ∧ (l.parent == n) = false ∧ (l.child == n) = false := by
  rw [dispose_nodes_links] at hl
  have h2 := List.mem_filter.mp hl
  have h1 := List.mem_filter.mp h2.1
  refine ⟨h1.1, ?_, ?_⟩
  · simpa using h1.2
  · simpa using h2.2

theorem extLinks_dispose_self (s : GraphState) (n : Nat) :
    extLinks (GraphNode.dispose s n) n = [] := by
  unfold extLinks
  rw [List.filter_eq_nil_iff]
  intro l hl
  have := (mem_dispose_links s n l hl).2.1
  simp [this]

theorem removePrev_dispose_self (s : GraphState) (n : Nat) (c : String) :
    removePrevExtension (GraphNode.dispose s n) n c = GraphNode.dispose s n := by
  unfold removePrevExtension
  have : Property.getExtension (GraphNode.dispose s n) n c = none := by
    unfold Property.getExtension
    rw [extLinks_dispose_self]
    rfl
  rw [this]

/-- C3 counterexample: the claim says every further graph operation on a
disposed node — `setExtension` included — fails with `InvalidState`, but
`setExtension(ctor, null)` on a disposed node takes the early-return path of
the source (no graph primitive is invoked once the extensions list is empty)
and returns `this` without any error. -/
theorem C3_counterexample :
    isDisposed (GraphNode.dispose stateWithA 1) 1 = true ∧
    (Property.setExtension (GraphNode.dispose stateWithA 1) 1 "A" none).1
      = Except.ok 1 := by decide

/-- C3 (amended): after `dispose`, the node lists no parents, no node lists it
as a parent any more, and `detach`, `setExtension` with a non-null extension,
and `link` from it all fail with `InvalidState`; however `setExtension` with
null on the disposed node is a silent no-op returning the node. -/
theorem C3_amended_dispose (s : GraphState) (n : Nat) :
    Property.listParents (GraphNode.dispose s n) n = [] ∧
    (∀ c : Nat, n ∉ Property.listParents (GraphNode.dispose s n) c) ∧
    (Property.detach (GraphNode.dispose s n) n).1 = Except.error GraphError.invalidState ∧
    (∀ (c : String) (e : Nat),
      (Property.setExtension (GraphNode.dispose s n) n c (some e)).1
        = Except.error GraphError.invalidState) ∧
    (∀ (slot nm : String) (e : Nat),
      PropertyGraph.link (GraphNode.dispose s n) slot nm n e
        = Except.error GraphError.invalidState) ∧
    (∀ c : String,
      Property.setExtension (GraphNode.dispose s n) n c none
        = (Except.ok n, GraphNode.dispose s n)) := by
  have hd := isDisposed_dispose s n
  refine ⟨?_, ?_, ?_, ?_, ?_, ?_⟩
  · unfold Property.listParents GraphNode.listGraphParents
    have hnil : (GraphNode.dispose s n).links.filter (fun l => l.child == n) = [] := by
      rw [List.filter_eq_nil_iff]
      intro l hl
      have := (mem_dispose_links s n l hl).2.2
      simp [this]
    rw [hnil]
    rfl
  · intro c hmem
    unfold Property.listParents GraphNode.listGraphParents at hmem
    rw [List.mem_dedup] at hmem
    obtain ⟨l, hl, hlp⟩ := List.mem_map.mp hmem
    have hl2 := (List.mem_filter.mp hl).1
    have := (mem_dispose_links s n l hl2).2.1
    rw [hlp] at this
    simp at this
  · unfold Property.detach PropertyGraph.disconnectParents
    rw [hd]
    rfl
  · intro c e
    have hred : Property.setExtension (GraphNode.dispose s n) n c (some e)
        = (match PropertyGraph.link (removePrevExtension (GraphNode.dispose s n) n c) extSlot
              (extensionNameOf (removePrevExtension (GraphNode.dispose s n) n c) e) n e with
            | Except.ok s2 => (Except.ok n, s2)
            | Except.error err => (Except.error err, removePrevExtension (GraphNode.dispose s n) n c)) := rfl
    have hd2 : isDisposed (removePrevExtension (GraphNode.dispose s n) n c) n = true := by
      rw [isDisposed_congr (removePrev_nodes (GraphNode.dispose s n) n c)]
      exact hd
    rw [hred]
    unfold PropertyGraph.link
    rw [hd2]
    rfl
  · intro slot nm e
    unfold PropertyGraph.link
    rw [hd]
    rfl
  · intro c
    rw [setExtension_none_eq, removePrev_dispose_self]

/-- Witness for C3's amended theorem at a concrete state. -/
theorem C3_amended_witness :
    Property.listParents (GraphNode.dispose detachState 1) 1 = [] ∧
    (1 : Nat) ∉ Property.listParents (GraphNode.dispose detachState 1) 3 :=
  ⟨(C3_amended_dispose detachState 1).1,
   (C3_amended_dispose detachState 1).2.1 3⟩

/-- C4 counterexample: `setExtension` is not atomic — replacing an attached
extension with a disposed node first removes the old link, then fails when
creating the new one, leaving the link list mutated on failure. -/
theorem C4_counterexample :
    (Property.setExtension stateWithA 0 "A" (some 6)).1
      = Except.error GraphError.invalidOperation ∧
    (Property.setExtension stateWithA 0 "A" (some 6)).2 ≠ stateWithA ∧
    Property.listExtensions (Property.setExtension stateWithA 0 "A" (some 6)).2 0
      ≠ Property.listExtensions stateWithA 0 := by decide

/-- C4 (amended): graph mutations fail before mutating any link list, except
`setExtension` with a non-null replacement: when creating the new link fails,
the previously attached identifier-matching link has already been removed, and
the failure state is exactly the removal phase of the operation. -/
theorem C4_amended_atomicity :
    (∀ (s : GraphState) (n : Nat) (err : GraphError),
      (Property.detach s n).1 = Except.error err → (Property.detach s n).2 = s) ∧
    (∀ (s : GraphState) (h : Nat) (c : String),
      (Property.setExtension s h c none).1 = Except.ok h) ∧
    (∀ (s : GraphState) (h e : Nat) (c : String) (err : GraphError),
      (Property.setExtension s h c (some e)).1 = Except.error err →
        (Property.setExtension s h c (some e)).2 = removePrevExtension s h c) := by
  refine ⟨?_, ?_, ?_⟩
  · intro s n err hf
    unfold Property.detach at hf ⊢
    cases hres : PropertyGraph.disconnectParents s n
        (fun p => propertyTypeOf s p != "Root") with
    | ok s2 => rw [hres] at hf; simp at hf
    | error e2 => rfl
  · intro s h c
    rw [setExtension_none_eq]
  · intro s h e c err hf
    exact setExtension_error_state s h e c err hf

/-- Witness for C4's amended theorem at concrete states: a failing `detach`
leaves the state unchanged, and the failing `setExtension` of the
counterexample scenario ends in exactly the removal-phase state. -/
theorem C4_amended_witness :
    (Property.detach (GraphNode.dispose sanityState 1) 1).2 = GraphNode.dispose sanityState 1 ∧
    (Property.setExtension sanityState 0 "B" none).1 = Except.ok 0 ∧
    (Property.setExtension stateWithA 0 "A" (some 6)).2 = removePrevExtension stateWithA 0 "A" :=
  ⟨C4_amended_atomicity.1 (GraphNode.dispose sanityState 1) 1 GraphError.invalidState (by decide),
   C4_amended_atomicity.2.1 sanityState 0 "B",
   C4_amended_atomicity.2.2 stateWithA 0 6 "A" GraphError.invalidOperation (by decide)⟩

/-- The invariant bounds the number of identifier-matching links by one. -/
theorem count_le_one_of_invariant (s : GraphState) (h : Nat) (c : String)
    (hinv : extInvariant s h) :
    ((extLinks s h).filter (extMatches s c)).length ≤ 1 := by
  cases hF : (extLinks s h).filter (extMatches s c) with
  | nil => simp
  | cons a t =>
    cases t with
    | nil => simp
    | cons b t2 =>
      exfalso
      have hpw : List.Pairwise
          (fun l1 l2 => extensionNameOf s l1.child ≠ extensionNameOf s l2.child)
          ((extLinks s h).filter (extMatches s c)) :=
        List.Pairwise.filter _ hinv
      rw [hF] at hpw
      have hr := List.rel_of_pairwise_cons hpw (List.mem_cons_self b t2)
      have hma : extMatches s c a = true := by
        have hmem : a ∈ (extLinks s h).filter (extMatches s c) := by
          rw [hF]; exact List.mem_cons_self a (b :: t2)
        exact (List.mem_filter.mp hmem).2
      have hmb : extMatches s c b = true := by
        have hmem : b ∈ (extLinks s h).filter (extMatches s c) := by
          rw [hF]
          exact List.mem_cons_of_mem a (List.mem_cons_self b t2)
        exact (List.mem_filter.mp hmem).2
      unfold extMatches at hma hmb
      rw [beq_iff_eq] at hma hmb
      exact hr (hma.trans hmb.symm)

/-- C8: in `setExtension(ctor, ext)` with non-null `ext`, the removed link is
keyed by the token's `EXTENSION_NAME` (its child's identifier equals the
token's identifier), while the added link is named and keyed by the
extension's own `extensionName`; the at-most-one invariant is preserved under
the precondition that the two identifiers agree, and is violated by an
explicit state when they disagree. -/
theorem C8_setExtension_keying :
    (∀ (s : GraphState) (h p : Nat) (c : String),
      Property.getExtension s h c = some p →
        extensionNameOf s p = c ∧
        removePrevExtension s h c = GraphNode.removeGraphChild s h p) ∧
    (∀ (s : GraphState) (h e : Nat) (c : String),
      isDisposed s h = false → isDisposed s e = false →
      graphIdOf s h = graphIdOf s e →
      ∃ L : Link,
        extLinks (Property.setExtension s h c (some e)).2 h
          = extLinks (removePrevExtension s h c) h ++ [L] ∧
        L.name = extensionNameOf s e ∧ L.child = e) ∧
    (∀ (s : GraphState) (h e : Nat) (c : String),
      extensionNameOf s e = c → extInvariant s h →
      isDisposed s h = false → isDisposed s e = false →
      graphIdOf s h = graphIdOf s e →
      extInvariant (Property.setExtension s h c (some e)).2 h) ∧
    (∃ (s : GraphState) (h e : Nat) (c : String),
      extensionNameOf s e ≠ c ∧ extInvariant s h ∧
      (Property.setExtension s h c (some e)).1 = Except.ok h ∧
      ¬ extInvariant (Property.setExtension s h c (some e)).2 h) := by
  refine ⟨?_, ?_, ?_, ?_⟩
  · intro s h p c hp
    obtain ⟨lp, hmem, hchild, hmatch⟩ := getExtension_some s h c p hp
    constructor
    · unfold extMatches at hmatch
      rw [hchild] at hmatch
      exact beq_iff_eq.mp hmatch
    · unfold removePrevExtension
      rw [hp]
  · intro s h e c hh he hg
    rw [setExtension_some_eq s h e c hh he hg]
    refine ⟨_, extLinks_linkedState (removePrevExtension s h c) (extensionNameOf s e) h e, rfl, rfl⟩
  · intro s h e c hname hinv hh he hg
    have hcount := count_le_one_of_invariant s h c hinv
    rw [setExtension_some_eq s h e c hh he hg]
    unfold extInvariant
    have hnm : ∀ m : Nat,
        extensionNameOf (linkedState (removePrevExtension s h c) extSlot
          (extensionNameOf s e) h e) m = extensionNameOf s m := by
      intro m
      rw [extensionNameOf_congr (linkedState_nodes (removePrevExtension s h c)
        extSlot (extensionNameOf s e) h e) m]
      exact extensionNameOf_congr (removePrev_nodes s h c) m
    simp only [hnm]
    rw [extLinks_linkedState, extLinks_removePrev s h c hcount]
    rw [List.pairwise_append]
    refine ⟨List.Pairwise.filter _ hinv, by simp, ?_⟩
    intro x hx y hy
    have hxm := (List.mem_filter.mp hx).2
    have hy2 := List.mem_singleton.mp hy
    rw [hy2]
    show extensionNameOf s x.child ≠ extensionNameOf s e
    rw [hname]
    unfold extMatches at hxm
    simpa using hxm
  · refine ⟨stateWithA, 0, 2, "B", by decide, by decide, by decide, by decide⟩

/-- Witness for C8: the removal key and the invariant preservation discharged
at concrete states. -/
theorem C8_witness :
    extensionNameOf stateWithA 1 = "A" ∧
    extInvariant (Property.setExtension stateWithA 0 "A" (some 2)).2 0 :=
  ⟨(C8_setExtension_keying.1 stateWithA 0 1 "A" (by decide)).1,
   C8_setExtension_keying.2.2.1 stateWithA 0 2 "A" (by decide) (by decide)
     (by decide) (by decide) (by decide)⟩

/-! ### Congruence of identifier filtering, and setExtension as a step -/

theorem filter_extMatches_congr {s1 s2 : GraphState} (hn : s1.nodes = s2.nodes)
    (c : String) (ls : List Link) :
    ls.filter (extMatches s1 c) = ls.filter (extMatches s2 c) := by
  apply List.filter_congr
  intro l _
  rw [extMatches_congr hn]

theorem filter_not_extMatches_congr {s1 s2 : GraphState} (hn : s1.nodes = s2.nodes)
    (c : String) (ls : List Link) :
    ls.filter (fun l => !(extMatches s1 c l)) = ls.filter (fun l => !(extMatches s2 c l)) := by
  apply List.filter_congr
  intro l _
  rw [extMatches_congr hn]

theorem disconnectedState_nodes (s : GraphState) (n : Nat) (pred : Nat → Bool) :
    (disconnectedState s n pred).nodes = s.nodes := rfl

/-- `detach` on a live node succeeds and removes exactly the incoming links
whose parent is not the Root. -/
theorem detach_ok (s : GraphState) (n : Nat) (halive : isDisposed s n = false) :
    Property.detach s n
      = (Except.ok n, disconnectedState s n (fun p => propertyTypeOf s p != "Root")) := by
  unfold Property.detach PropertyGraph.disconnectParents
  rw [halive]
  rfl

/-- One successful `setExtension` step, packaged: it returns the host, keeps
the node table, and its extensions list is the non-matching old links plus one
fresh link to the new extension (under the at-most-one hypothesis). -/
theorem setExtension_step (s : GraphState) (h e : Nat) (c : String)
    (hh : isDisposed s h = false) (he : isDisposed s e = false)
    (hg : graphIdOf s h = graphIdOf s e)
    (hcount : ((extLinks s h).filter (extMatches s c)).length ≤ 1) :
    (Property.setExtension s h c (some e)).1 = Except.ok h ∧
    (Property.setExtension s h c (some e)).2.nodes = s.nodes ∧
    ∃ L : Link,
      extLinks (Property.setExtension s h c (some e)).2 h
        = (extLinks s h).filter (fun l => !(extMatches s c l)) ++ [L] ∧
      L.child = e := by
  have hA := setExtension_some_eq s h e c hh he hg
  have hA1 : (Property.setExtension s h c (some e)).1 = Except.ok h := by rw [hA]
  have hA2 : (Property.setExtension s h c (some e)).2
      = linkedState (removePrevExtension s h c) extSlot (extensionNameOf s e) h e := by
    rw [hA]
  refine ⟨hA1, ?_, ?_⟩
  · rw [hA2, linkedState_nodes]
    exact removePrev_nodes s h c
  · refine ⟨{ linkId := (removePrevExtension s h c).nextLinkId, name := extensionNameOf s e, slot := extSlot, parent := h, child := e }, ?_, rfl⟩
    rw [hA2, extLinks_linkedState, extLinks_removePrev s h c hcount]

/-- C9: replacing an already-attached extension removes the old link and
appends the new one at the end of the host's extension list: a host with
extensions [a, b] of distinct identifiers, after re-setting a's identifier,
lists [b, a2] — the replacement does not keep the original position. -/
theorem C9_replacement_appends (s : GraphState) (h e : Nat) (la lb : Link) (c : String)
    (hext : extLinks s h = [la, lb])
    (hc : extensionNameOf s la.child = c)
    (hne : extensionNameOf s la.child ≠ extensionNameOf s lb.child)
    (_hea : extensionNameOf s e = c)
    (hh : isDisposed s h = false) (he : isDisposed s e = false)
    (hg : graphIdOf s h = graphIdOf s e) :
    (Property.setExtension s h c (some e)).1 = Except.ok h ∧
    Property.listExtensions (Property.setExtension s h c (some e)).2 h = [lb.child, e] := by
  have hfa : extMatches s c la = true := by
    unfold extMatches
    rw [hc]
    exact beq_self_eq_true c
  have hfb : extMatches s c lb = false := by
    unfold extMatches
    rw [beq_eq_false_iff_ne]
    intro hq
    exact hne (hc.trans hq.symm)
  have hcount : ((extLinks s h).filter (extMatches s c)).length ≤ 1 := by
    rw [hext]
    simp [List.filter_cons, hfa, hfb]
  obtain ⟨hok, hnodes, L, hlinks, hchild⟩ := setExtension_step s h e c hh he hg hcount
  refine ⟨hok, ?_⟩
  unfold Property.listExtensions
  rw [hlinks, hext]
  simp [List.filter_cons, hfa, hfb, hchild]

/-- Witness for C9 on `stateAB` (extensions [node 1 under "A", node 3 under
"B"]): re-setting "A" with node 2 produces the order [3, 2]. -/
theorem C9_witness :
    Property.listExtensions (Property.setExtension stateAB 0 "A" (some 2)).2 0 = [3, 2] :=
  (C9_replacement_appends stateAB 0 2
    { linkId := 0, name := "A", slot := extSlot, parent := 0, child := 1 }
    { linkId := 1, name := "B", slot := extSlot, parent := 0, child := 3 }
    "A" (by decide) (by decide) (by decide) (by decide) (by decide) (by decide)
    (by decide)).2

/-- C1: starting from a host satisfying the at-most-one invariant for
identifier `c`, attaching two extension nodes of identifier `c` in sequence
leaves exactly one extension link for `c`, pointing at the second node, while
the first node is unlinked from the host but not disposed. -/
theorem C1_setExtension_twice (s : GraphState) (h e1 e2 : Nat) (c : String)
    (hh : isDisposed s h = false)
    (h1 : isDisposed s e1 = false) (h2 : isDisposed s e2 = false)
    (hg1 : graphIdOf s h = graphIdOf s e1) (hg2 : graphIdOf s h = graphIdOf s e2)
    (hn1 : extensionNameOf s e1 = c) (hn2 : extensionNameOf s e2 = c)
    (hne : e1 ≠ e2)
    (hcount : ((extLinks s h).filter (extMatches s c)).length ≤ 1) :
    (Property.setExtension s h c (some e1)).1 = Except.ok h ∧
    (Property.setExtension (Property.setExtension s h c (some e1)).2 h c (some e2)).1
      = Except.ok h ∧
    ((extLinks (Property.setExtension (Property.setExtension s h c (some e1)).2
          h c (some e2)).2 h).filter
        (extMatches (Property.setExtension (Property.setExtension s h c (some e1)).2
          h c (some e2)).2 c)).map (fun l => l.child) = [e2] ∧
    e1 ∉ Property.listExtensions
      (Property.setExtension (Property.setExtension s h c (some e1)).2 h c (some e2)).2 h ∧
    isDisposed
      (Property.setExtension (Property.setExtension s h c (some e1)).2 h c (some e2)).2 e1
      = false := by
  obtain ⟨hok1, hnodes1, L1, hlinks1, hchild1⟩ := setExtension_step s h e1 c hh h1 hg1 hcount
  set T1 := (Property.setExtension s h c (some e1)).2 with hT1def
  have hmatchL1 : extMatches s c L1 = true := by
    unfold extMatches
    rw [hchild1, hn1]
    exact beq_self_eq_true c
  have hRnone : ∀ l ∈ (extLinks s h).filter (fun l => !(extMatches s c l)),
      extMatches s c l = false := by
    intro l hl
    simpa using (List.mem_filter.mp hl).2
  have hR0 : ((extLinks s h).filter (fun l => !(extMatches s c l))).filter (extMatches s c)
      = [] := by
    rw [List.filter_eq_nil_iff]
    intro l hl
    simp [hRnone l hl]
  have hfilter_T1 : (extLinks T1 h).filter (extMatches T1 c) = [L1] := by
    rw [filter_extMatches_congr hnodes1, hlinks1, List.filter_append, hR0]
    simp [hmatchL1]
  have hcount1 : ((extLinks T1 h).filter (extMatches T1 c)).length ≤ 1 := by
    rw [hfilter_T1]
    simp
  have hhT : isDisposed T1 h = false := by rw [isDisposed_congr hnodes1]; exact hh
  have h2T : isDisposed T1 e2 = false := by rw [isDisposed_congr hnodes1]; exact h2
  have hgT : graphIdOf T1 h = graphIdOf T1 e2 := by
    rw [graphIdOf_congr hnodes1, graphIdOf_congr hnodes1]
    exact hg2
  obtain ⟨hok2, hnodes2, L2, hlinks2, hchild2⟩ := setExtension_step T1 h e2 c hhT h2T hgT hcount1
  set T2 := (Property.setExtension T1 h c (some e2)).2 with hT2def
  have hT2nodesS : T2.nodes = s.nodes := by rw [hnodes2, hnodes1]
  have hmid : (extLinks T1 h).filter (fun l => !(extMatches T1 c l))
      = (extLinks s h).filter (fun l => !(extMatches s c l)) := by
    rw [filter_not_extMatches_congr hnodes1, hlinks1, List.filter_append]
    have hRid : ((extLinks s h).filter (fun l => !(extMatches s c l))).filter
        (fun l => !(extMatches s c l))
        = (extLinks s h).filter (fun l => !(extMatches s c l)) := by
      rw [List.filter_eq_self]
      intro l hl
      exact (List.mem_filter.mp hl).2
    rw [hRid]
    have hL1gone : [L1].filter (fun l => !(extMatches s c l)) = [] := by
      simp [hmatchL1]
    rw [hL1gone, List.append_nil]
  have hmatchL2 : extMatches s c L2 = true := by
    unfold extMatches
    rw [hchild2, hn2]
    exact beq_self_eq_true c
  refine ⟨hok1, hok2, ?_, ?_, ?_⟩
  · rw [filter_extMatches_congr hT2nodesS, hlinks2, hmid, List.filter_append, hR0]
    simp [hmatchL2, hchild2]
  · unfold Property.listExtensions
    rw [hlinks2, hmid]
    intro hmem
    rcases List.mem_map.mp hmem with ⟨l, hl, hlc⟩
    rcases List.mem_append.mp hl with hl2 | hl2
    · have hfalse := hRnone l hl2
      unfold extMatches at hfalse
      rw [hlc, hn1] at hfalse
      simp at hfalse
    · have hL : l = L2 := by simpa using hl2
      rw [hL, hchild2] at hlc
      exact hne hlc.symm
  · rw [isDisposed_congr hT2nodesS]
    exact h1

/-- Witness for C1: attaching nodes 1 and 2 (both identifier "A") in sequence
on `sanityState` leaves one "A" link pointing at node 2. -/
theorem C1_witness :
    ((extLinks (Property.setExtension (Property.setExtension sanityState 0 "A" (some 1)).2
          0 "A" (some 2)).2 0).filter
        (extMatches (Property.setExtension (Property.setExtension sanityState 0 "A" (some 1)).2
          0 "A" (some 2)).2 "A")).map (fun l => l.child) = [2] :=
  (C1_setExtension_twice sanityState 0 1 2 "A" (by decide) (by decide) (by decide)
    (by decide) (by decide) (by decide) (by decide) (by decide) (by decide)).2.2.1

/-- C2: for a live node `n` whose incoming links come from parents `p1`, `p2`
(not Root-typed, and distinct from `n`) and `r` (Root-typed), `detach` succeeds
and afterwards `listParents` is exactly `[r]`, `n` is still alive, and `n`'s
own outgoing links are unchanged. -/
theorem C2_detach_keeps_root (s : GraphState) (n p1 p2 r : Nat) (l1 l2 l3 : Link)
    (halive : isDisposed s n = false)
    (hpar : s.links.filter (fun l => l.child == n) = [l1, l2, l3])
    (hp1 : l1.parent = p1) (hp2 : l2.parent = p2) (hp3 : l3.parent = r)
    (ht1 : propertyTypeOf s p1 ≠ "Root") (ht2 : propertyTypeOf s p2 ≠ "Root")
    (ht3 : propertyTypeOf s r = "Root")
    (hd1 : p1 ≠ n) (hd2 : p2 ≠ n) :
    (Property.detach s n).1 = Except.ok n ∧
    Property.listParents (Property.detach s n).2 n = [r] ∧
    isDisposed (Property.detach s n).2 n = false ∧
    (Property.detach s n).2.links.filter (fun l => l.parent == n)
      = s.links.filter (fun l => l.parent == n) := by
  have hD := detach_ok s n halive
  have hDs : (Property.detach s n).2
      = disconnectedState s n (fun p => propertyTypeOf s p != "Root") := by rw [hD]
  have hm1 : l1 ∈ s.links.filter (fun l => l.child == n) := by
    rw [hpar]; exact List.mem_cons_self l1 [l2, l3]
  have hm2 : l2 ∈ s.links.filter (fun l => l.child == n) := by
    rw [hpar]; exact List.mem_cons_of_mem l1 (List.mem_cons_self l2 [l3])
  have hm3 : l3 ∈ s.links.filter (fun l => l.child == n) := by
    rw [hpar]
    exact List.mem_cons_of_mem l1 (List.mem_cons_of_mem l2 (List.mem_cons_self l3 []))
  have hc1 : (l1.child == n) = true := (List.mem_filter.mp hm1).2
  have hc2 : (l2.child == n) = true := (List.mem_filter.mp hm2).2
  have hc3 : (l3.child == n) = true := (List.mem_filter.mp hm3).2
  refine ⟨by rw [hD], ?_, ?_, ?_⟩
  · rw [hDs]
    unfold Property.listParents GraphNode.listGraphParents disconnectedState
    have hcomb : (s.links.filter
          (fun l => !(l.child == n && (propertyTypeOf s l.parent != "Root")))).filter
          (fun l => l.child == n)
        = (s.links.filter (fun l => l.child == n)).filter
          (fun l => !(l.child == n && (propertyTypeOf s l.parent != "Root"))) := by
      rw [List.filter_filter, List.filter_filter]
      apply List.filter_congr
      intro l _
      cases ha : (l.child == n) <;> cases hb : (propertyTypeOf s l.parent != "Root") <;>
        simp [ha, hb]
    show List.dedup (List.map (fun l => l.parent)
        ((s.links.filter
          (fun l => !(l.child == n && (propertyTypeOf s l.parent != "Root")))).filter
          (fun l => l.child == n))) = [r]
    rw [hcomb, hpar]
    have k1 : (!(l1.child == n && (propertyTypeOf s l1.parent != "Root"))) = false := by
      simp [hc1, hp1, ht1]
    have k2 : (!(l2.child == n && (propertyTypeOf s l2.parent != "Root"))) = false := by
      simp [hc2, hp2, ht2]
    have k3 : (!(l3.child == n && (propertyTypeOf s l3.parent != "Root"))) = true := by
      simp [hp3, ht3]
    have hlist : List.filter
        (fun l => !(l.child == n && (propertyTypeOf s l.parent != "Root"))) [l1, l2, l3]
        = [l3] := by
      simp only [List.filter_cons, List.filter_nil, k1, k2, k3]
      simp
    rw [hlist, List.map_cons, List.map_nil, hp3,
      List.dedup_cons_of_not_mem (List.not_mem_nil r), List.dedup_nil]
  · rw [hDs, isDisposed_congr (disconnectedState_nodes s n _)]
    exact halive
  · rw [hDs]
    unfold disconnectedState
    show (s.links.filter
        (fun l => !(l.child == n && (propertyTypeOf s l.parent != "Root")))).filter
        (fun l => l.parent == n)
      = s.links.filter (fun l => l.parent == n)
    rw [List.filter_filter]
    apply List.filter_congr
    intro l hl
    cases hpn : (l.parent == n) with
    | false => simp [hpn]
    | true =>
      have hpn2 : l.parent = n := by simpa using hpn
      cases hcn : (l.child == n) with
      | false => simp [hpn, hcn]
      | true =>
        have hlm : l ∈ s.links.filter (fun l => l.child == n) :=
          List.mem_filter.mpr ⟨hl, hcn⟩
        rw [hpar] at hlm
        rcases (by simpa using hlm : l = l1 ∨ l = l2 ∨ l = l3) with hq | hq | hq
        · exact absurd (by rw [← hp1, ← hq]; exact hpn2 : p1 = n) hd1
        · exact absurd (by rw [← hp2, ← hq]; exact hpn2 : p2 = n) hd2
        · simp [hpn, hcn, hq, hp3, ht3]

/-- Witness for C2 on `detachState`: node 1 has parents 0, 5 (Materials) and
4 (Root); after detach only the Root remains. -/
theorem C2_witness :
    Property.listParents (Property.detach detachState 1).2 1 = [4] :=
  (C2_detach_keeps_root detachState 1 0 5 4
    { linkId := 0, name := "r", slot := "refs", parent := 0, child := 1 }
    { linkId := 1, name := "r", slot := "refs", parent := 5, child := 1 }
    { linkId := 2, name := "r", slot := "refs", parent := 4, child := 1 }
    (by decide) (by decide) (by decide) (by decide) (by decide) (by decide)
    (by decide) (by decide) (by decide) (by decide)).2.1
